import Mathlib

/-!
Shallow embedding of the biopsy annotation-to-raster pipeline
(src/biopsy/annotation.py, src/biopsy/tile_builder.py,
src/biopsy/annotated_slide.py) together with proofs settling the frozen
claims about it.

Modelling conventions:
* Python ints are Lean Int; Python floats are modelled as exact rationals.
* Python floor division (the // operator) is Int.fdiv.
* Every raster produced by the pipeline has constant black color channels
  (all drawing uses color (0, 0, 0, a)), so an image is modelled by its
  width, height and alpha channel only.
* The external raster library (PIL) is modelled at its interface: crop,
  paste and new have their concrete PIL semantics (in particular crop
  rejects an inverted box exactly as PIL does), while the pixel-level
  content of line drawing and flood filling is kept as an abstract
  RasterOps capability, matching the spec's external-interface boundary.
* Exceptions are modelled with Except; in-place mutation of an object is
  modelled by returning the updated object.
-/

/-- An image, reduced to its alpha channel: width, height (in pixels) and
the alpha value at each coordinate.  Coordinates outside the rectangle
are meaningless and are masked off by getpix. -/
structure Img where
  w : ℤ
  h : ℤ
  alpha : ℤ → ℤ → ℕ

/-- Pixel lookup with PIL's out-of-bounds behavior for crop: pixels
outside the image read as 0 (transparent black). -/
def getpix (img : Img) (x y : ℤ) : ℕ :=
  if 0 ≤ x ∧ x < img.w ∧ 0 ≤ y ∧ y < img.h then img.alpha x y else 0

/-- Errors raised by the modelled PIL crop: Pillow's Image.crop raises
ValueError when the right edge is left of the left edge, or the lower
edge is above the upper edge. -/
inductive RasterErr where
  | cropRight : RasterErr
  | cropLower : RasterErr
deriving DecidableEq, Repr

/-- PIL Image.new for a fully transparent image: constant alpha. -/
def imgNew (w h : ℤ) (a : ℕ) : Img :=
  { w := w, h := h, alpha := fun _ _ => a }

/-- PIL Image.crop with box (l, u, r, lo).  Checks the box orientation
exactly as Pillow does (right before lower); out-of-bounds parts of the
box read as transparent. -/
def imgCrop (img : Img) (l u r lo : ℤ) : Except RasterErr Img :=
  if r < l then .error .cropRight
  else if lo < u then .error .cropLower
  else .ok { w := r - l, h := lo - u, alpha := fun x y => getpix img (x + l) (y + u) }

/-- PIL fixed-point blend of one channel under a mask value m in 0..255. -/
def pasteBlend (d s m : ℕ) : ℕ :=
  (d * (255 - m) + s * m) / 255

/-- PIL Image.paste of src onto dest at offset (px, py) with the source
itself as the mask (the masked alpha-composite used by the pipeline). -/
def imgPaste (dest src : Img) (px py : ℤ) : Img :=
  { dest with
    alpha := fun x y =>
      if px ≤ x ∧ x < px + src.w ∧ py ≤ y ∧ y < py + src.h then
        pasteBlend (getpix dest x y) (getpix src (x - px) (y - py))
          (getpix src (x - px) (y - py))
      else dest.alpha x y }

/-- The external raster capabilities whose pixel-level output the spec
leaves to the library: ImageDraw.Draw(...).line with width 2, and
ImageDraw.floodfill with 4-connectivity.  Both mutate the alpha channel
in place, so they are modelled as transformers of the alpha channel. -/
structure RasterOps where
  drawLine : (ℤ → ℤ → ℕ) → ℤ → ℤ → ℤ → ℤ → (ℤ → ℤ → ℕ)
  floodfill : (ℤ → ℤ → ℕ) → ℤ → ℤ → ℕ → (ℤ → ℤ → ℕ)

/-- A degenerate RasterOps instance used only to evaluate the model on
concrete inputs in witnesses. -/
def trivialRaster : RasterOps :=
  { drawLine := fun f _ _ _ _ => f, floodfill := fun f _ _ _ => f }

/-- One annotation: Annotation.__init__ stores the polygon, the bounding
box computed by _compute_bounds, an empty render cache and current level
-1. -/
structure Annot where
  pixelPoints : List (ℤ × ℤ)
  location : ℤ × ℤ
  size : ℤ × ℤ
  rendCache : Option Img
  currentLevel : ℤ

/-- Annotation._compute_bounds: min/max of the polygon coordinates with
margin 2 ** 4; the location moves by margin // 2 and the size grows by
margin.  The empty case is unreachable in Python (zip of no points
raises) and returns a junk box. -/
def computeBounds (pts : List (ℤ × ℤ)) : (ℤ × ℤ) × (ℤ × ℤ) :=
  match pts with
  | [] => ((0, 0), (0, 0))
  | p :: ps =>
    let minX := ps.foldl (fun m q => min m q.1) p.1
    let maxX := ps.foldl (fun m q => max m q.1) p.1
    let minY := ps.foldl (fun m q => min m q.2) p.2
    let maxY := ps.foldl (fun m q => max m q.2) p.2
    let margin : ℤ := 2 ^ 4
    ((minX - margin / 2, minY - margin / 2),
     (maxX - minX + margin, maxY - minY + margin))

/-- Annotation.__init__. -/
def mkAnnot (pts : List (ℤ × ℤ)) : Annot :=
  { pixelPoints := pts
    location := (computeBounds pts).1
    size := (computeBounds pts).2
    rendCache := none
    currentLevel := -1 }

/-- Annotation._box_ranges. -/
def boxRanges (location size : ℤ × ℤ) : (ℤ × ℤ) × (ℤ × ℤ) :=
  ((location.1, location.1 + size.1), (location.2, location.2 + size.2))

/-- Annotation.overlap: inclusive axis-aligned box intersection test. -/
def annOverlap (a : Annot) (otherLocation otherSize : ℤ × ℤ) : Bool :=
  let ra := boxRanges a.location a.size
  let rb := boxRanges otherLocation otherSize
  decide (ra.1.1 ≤ rb.1.2 ∧ rb.1.1 ≤ ra.1.2) &&
  decide (ra.2.1 ≤ rb.2.2 ∧ rb.2.1 ≤ ra.2.2)

/-- Annotation._a_relative_to_b: the overlap rectangle of box a inside
box b's local frame, clamped per axis. -/
def aRelativeToB (locA sizeA locB sizeB : ℤ × ℤ) : (ℤ × ℤ) × (ℤ × ℤ) :=
  ((max (locA.1 - locB.1) 0, max (locA.2 - locB.2) 0),
   (min (locA.1 - locB.1 + sizeA.1) sizeB.1,
    min (locA.2 - locB.2 + sizeA.2) sizeB.2))

/-- The current_level setter: a no-op when the value is unchanged,
otherwise it records the new level and clears the render cache. -/
def setCurrentLevel (a : Annot) (v : ℤ) : Annot :=
  if a.currentLevel = v then a
  else { a with currentLevel := v, rendCache := none }

/-- The closed polyline drawing loop of Annotation._render: starting
from the last point, draw a width-2 line segment to each point in
order. -/
def drawClosedPolyline (ops : RasterOps) (ps : List (ℤ × ℤ))
    (alpha0 : ℤ → ℤ → ℕ) : ℤ → ℤ → ℕ :=
  match ps.getLast? with
  | none => alpha0
  | some pLast =>
    (ps.foldl (fun st p => (ops.drawLine st.1 st.2.1 st.2.2 p.1 p.2, p))
      (alpha0, pLast)).1

/-- Annotation._render: map the polygon into box-relative level-scaled
coordinates, draw the closed boundary, flood fill the exterior from the
corner seed (0, 0) with alpha 255, then invert the alpha channel so the
interior ends up opaque.  The source computes 2 ** current_level; render
is only reachable after render_region has set a nonnegative level, which
toNat reflects. -/
def renderImpl (ops : RasterOps) (a : Annot) : Img :=
  let downsample : ℤ := 2 ^ a.currentLevel.toNat
  let pointsBoxRelative := a.pixelPoints.map
    (fun p => ((p.1 - a.location.1).fdiv downsample,
               (p.2 - a.location.2).fdiv downsample))
  let renderSize := (a.size.1.fdiv downsample, a.size.2.fdiv downsample)
  let drawn := drawClosedPolyline ops pointsBoxRelative (fun _ _ => 0)
  let filled := ops.floodfill drawn 0 0 255
  { w := renderSize.1, h := renderSize.2, alpha := fun x y => 255 - filled x y }

/-- The rendered property: return the cached mask if present, otherwise
render, cache and return.  The Bool reports whether a render happened
(used to state the caching claims). -/
def getRendered (ops : RasterOps) (a : Annot) : Img × Annot × Bool :=
  match a.rendCache with
  | some img => (img, a, false)
  | none =>
    let img := renderImpl ops a
    (img, { a with rendCache := some img }, true)

/-- Annotation.render_region: set the level (possibly clearing the
cache), compute the overlap rectangle of the region inside the
annotation box, floor-scale it to the level, crop the rendered mask to
it (the step that can fail), and paste the crop at the level-scaled
paste offset onto a fresh transparent canvas of the requested size.
Returns the result, the updated annotation and whether a render
happened. -/
def annRenderRegion (ops : RasterOps) (a0 : Annot) (regionLocation : ℤ × ℤ)
    (level : ℕ) (regionSize : ℤ × ℤ) :
    Except RasterErr Img × Annot × Bool :=
  let a := setCurrentLevel a0 level
  let downsample : ℤ := 2 ^ level
  let regionSizeLevel0 := (regionSize.1 * downsample, regionSize.2 * downsample)
  let annBox := aRelativeToB regionLocation regionSizeLevel0 a.location a.size
  let annX1 := annBox.1.1.fdiv downsample
  let annY1 := annBox.1.2.fdiv downsample
  let annX2 := annBox.2.1.fdiv downsample
  let annY2 := annBox.2.2.fdiv downsample
  let rra := getRendered ops a
  let res :=
    match imgCrop rra.1 annX1 annY1 annX2 annY2 with
    | .error e => .error e
    | .ok renderedCrop =>
      let renderedRegion := imgNew regionSize.1 regionSize.2 0
      let reg1Box := aRelativeToB a.location a.size regionLocation regionSizeLevel0
      let reg1 := (reg1Box.1.1.fdiv downsample, reg1Box.1.2.fdiv downsample)
      .ok (imgPaste renderedRegion renderedCrop reg1.1 reg1.2)
  (res, rra.2.1, rra.2.2)

/-- Errors of AnnotationCollection.render_region: the NotImplementedError
for non-square regions, or a raster error propagated from an
annotation's render_region. -/
inductive RenderErr where
  | nonSquare : RenderErr
  | raster : RasterErr → RenderErr
deriving DecidableEq, Repr

/-- Conversion to mode LA at the end of the collection render.  Only the
alpha band is modelled; LA conversion keeps the alpha band and the
luminance of the constant black color channels is 0, so it is the
identity here. -/
def convertLA (img : Img) : Img := img

/-- The annotation loop of AnnotationCollection.render_region: skip
annotations whose bounding box does not overlap the level-0-scaled
region, render the rest and paste each result onto the accumulated
canvas at (0, 0).  An exception from any render aborts the whole loop
(cache mutations of earlier annotations are per-object and do not affect
the result of later ones, so updated states are not threaded). -/
def renderRegionFold (ops : RasterOps) (location : ℤ × ℤ) (level : ℕ)
    (sizeLevel0 size : ℤ × ℤ) :
    List Annot → Img → Except RenderErr Img
  | [], acc => .ok acc
  | a :: rest, acc =>
    if annOverlap a location sizeLevel0 then
      match (annRenderRegion ops a location level size).1 with
      | .error e => .error (.raster e)
      | .ok m =>
        renderRegionFold ops location level sizeLevel0 size rest (imgPaste acc m 0 0)
    else renderRegionFold ops location level sizeLevel0 size rest acc

/-- AnnotationCollection.render_region: reject non-square sizes, start
from a fully transparent canvas, composite every overlapping
annotation, and convert the result to LA. -/
def collectionRenderRegion (ops : RasterOps) (anns : List Annot)
    (location : ℤ × ℤ) (level : ℕ) (size : ℤ × ℤ) : Except RenderErr Img :=
  if size.1 ≠ size.2 then .error .nonSquare
  else
    let combinedMask := imgNew size.1 size.2 0
    let downsample : ℤ := 2 ^ level
    let sizeLevel0 := (size.1 * downsample, size.2 * downsample)
    match renderRegionFold ops location level sizeLevel0 size anns combinedMask with
    | .error e => .error e
    | .ok m => .ok (convertLA m)

/-- Python's round builtin on an exact rational: round half to even. -/
def pyRound (q : ℚ) : ℤ :=
  let f := ⌊q⌋
  let r := q - f
  if r < 1 / 2 then f
  else if 1 / 2 < r then f + 1
  else if Even f then f else f + 1

/-- AnnotationParser._physical_cord2level0 for one axis, with the slide
calibration (pixel dimension, nanometer offset, microns per pixel) for
that axis: subtract the offset, divide by mpp * 1000, add half the
dimension, and round. -/
def physical_cord2level0 (dimension offset : ℤ) (mpp : ℚ) (coord : ℤ) : ℤ :=
  let temp : ℚ := (coord : ℚ) - (offset : ℚ)
  let temp := temp / (mpp * 1000)
  let temp := temp + (dimension : ℚ) / 2
  pyRound temp

/-- AnnotationParser._physical_point2level0: the per-axis conversion
applied to x with the x calibration and to y with the y calibration. -/
def physical_point2level0 (dimensions : ℤ × ℤ) (mpp : ℚ × ℚ)
    (offset : ℤ × ℤ) (point : ℤ × ℤ) : ℤ × ℤ :=
  (physical_cord2level0 dimensions.1 offset.1 mpp.1 point.1,
   physical_cord2level0 dimensions.2 offset.2 mpp.2 point.2)

/-- One ndpviewstate record of the parsed tree, reduced to the fields
the parser reads: the annotation's closed flag and its point list in
physical coordinates. -/
structure Viewstate where
  closed : ℤ
  points : List (ℤ × ℤ)
deriving DecidableEq, Repr

/-- The parse failure of AnnotationParser._parse_viewstate: the
ValueError raised for an annotation whose closed flag is not 1. -/
inductive ParseErr where
  | malformedAnnot : ParseErr
deriving DecidableEq, Repr

/-- AnnotationParser._parse_viewstate: require closed == 1, convert every
physical point to level-0 pixels and construct the annotation. -/
def parseViewstate (dimensions : ℤ × ℤ) (mpp : ℚ × ℚ) (offset : ℤ × ℤ)
    (vs : Viewstate) : Except ParseErr Annot :=
  if vs.closed = 1 then
    .ok (mkAnnot (vs.points.map (physical_point2level0 dimensions mpp offset)))
  else .error .malformedAnnot

/-- AnnotationParser.parse: parse each viewstate in order; the first
exception aborts the whole parse and no collection is produced. -/
def parseTree (dimensions : ℤ × ℤ) (mpp : ℚ × ℚ) (offset : ℤ × ℤ) :
    List Viewstate → Except ParseErr (List Annot)
  | [] => .ok []
  | vs :: rest =>
    match parseViewstate dimensions mpp offset vs with
    | .error e => .error e
    | .ok a =>
      match parseTree dimensions mpp offset rest with
      | .error e => .error e
      | .ok as => .ok (a :: as)

/-- The OpenSlide handle as AnnotatedSlide uses it: pixel dimensions,
the declared integer downsample property per level, and the raw region
read (already converted to RGB), with the raster type abstract. -/
structure RawSlide (α : Type) where
  dimensions : ℤ × ℤ
  downsample : ℕ → ℤ
  read_region : ℤ × ℤ → ℕ → ℤ × ℤ → α

/-- Errors of AnnotatedSlide.read_region: the calibration-mismatch
ValueError, or an error propagated from the collection render. -/
inductive SlideErr where
  | calibrationMismatch : SlideErr
  | render : RenderErr → SlideErr
deriving DecidableEq, Repr

/-- AnnotatedSlide.read_region: read the slide region, validate that the
declared downsample for the level is exactly 2 ** level, then render the
matching annotation mask for the same location, level and size. -/
def annotatedReadRegion (ops : RasterOps) (slide : RawSlide α)
    (anns : List Annot) (location : ℤ × ℤ) (level : ℕ) (size : ℤ × ℤ) :
    Except SlideErr (α × Img) :=
  let slideRegion := slide.read_region location level size
  if (2 ^ level : ℤ) ≠ slide.downsample level then .error .calibrationMismatch
  else
    match collectionRenderRegion ops anns location level size with
    | .error e => .error (.render e)
    | .ok m => .ok (slideRegion, m)

/-- Python's int() applied to a float value: truncation toward zero. -/
def pyInt (q : ℚ) : ℤ :=
  if 0 ≤ q then ⌊q⌋ else ⌈q⌉

/-- Python's range(start, stop, step) as a list: the i-th element is
start + step * i and the length is the ceiling of (stop - start) / step
clamped to 0, computed as CPython does with floor divisions
(stop - start + step - 1) // step for a positive step and
(stop - start + step + 1) // step for a negative one.  Python raises for
step = 0; that case is modelled as the empty list and is unreachable
from build, whose step is never 0 in a run that yields anything. -/
def pyRange (start stop step : ℤ) : List ℤ :=
  if 0 < step then
    (List.range ((stop - start + step - 1).fdiv step).toNat).map
      (fun i : ℕ => start + step * (i : ℤ))
  else if step < 0 then
    (List.range ((stop - start + step + 1).fdiv step).toNat).map
      (fun i : ℕ => start + step * (i : ℤ))
  else []

/-- TileBuilder.build's stride: (tile_size - int(tile_size * overlap))
scaled to level 0. -/
def strideVal (tileSize : ℤ) (overlap : ℚ) (level : ℕ) : ℤ :=
  (tileSize - pyInt ((tileSize : ℚ) * overlap)) * 2 ^ level

/-- TileBuilder.build's rotation margin,
int(ceil(tile_size * 0.5 ** 0.5 - tile_size / 2)) computed exactly over
the reals: for tileSize ≥ 1 the value tileSize * sqrt(1/2) is irrational
with integer part Nat.sqrt (2 * tileSize ^ 2), and the ceiling of
(that irrational - tileSize) / 2 is the floor of (its integer part -
tileSize) / 2, plus one.  (The Python float evaluation agrees with the
exact value for all practical tile sizes.) -/
def rotationMargin (tileSize : ℤ) : ℤ :=
  ((Nat.sqrt (2 * tileSize.toNat ^ 2) : ℤ) - tileSize).fdiv 2 + 1

/-- The fixed rotation angle set ROTATIONS. -/
def rotationAngles : List ℤ := [15, 30, 45]

/-- MOSTLY_WHITE_THRESHOLD. -/
def mostlyWhiteThreshold : ℚ := 7 / 10

/-- The slide interface TileBuilder.build consumes: the slide
dimensions, the (tile, mask) pair returned by
AnnotatedSlide.read_region for a location, level and size, the green
channel histogram of a tile (region.split()[1].histogram()), and the
rotate-then-crop raster operation on a tile.  The raster type is
abstract. -/
structure SlideM (α : Type) where
  width : ℤ
  height : ℤ
  read_region : ℤ × ℤ → ℕ → ℤ × ℤ → α × α
  greenHist : α → List ℕ
  rotateCrop : α → ℤ → ℤ × ℤ × ℤ × ℤ → α

/-- TileBuilder._is_mostly_white: the fraction of pixels in green
histogram buckets 220 and above, over the total pixel count, compared
with the threshold. -/
def isMostlyWhite (s : SlideM α) (region : α) (threshold : ℚ) : Bool :=
  let hist := s.greenHist region
  decide ((((hist.drop 220).sum : ℚ) / ((hist.sum : ℚ))) ≥ threshold)

/-- TileBuilder._room_for_rotation: the cell must leave
rotation_margin * 2 ** level of slack on all four sides. -/
def roomForRotation (width height marginLevel0 tileSizeLevel0 x y : ℤ) : Bool :=
  if x - marginLevel0 < 0 then false
  else if y - marginLevel0 < 0 then false
  else if x + marginLevel0 + tileSizeLevel0 > width then false
  else if y + marginLevel0 + tileSizeLevel0 > height then false
  else true

/-- TileBuilder._build_rotations: nothing if there is no room; otherwise
read one larger region with the rotation margin on every side and yield
one rotated-and-cropped (tile, mask) tuple per angle in ROTATIONS. -/
def buildRotations (s : SlideM α) (level : ℕ) (tileSize x y : ℤ) :
    List (ℤ × ℤ × ℤ × α × α) :=
  let margin := rotationMargin tileSize
  let marginLevel0 := margin * 2 ^ level
  let tileSizeLevel0 := tileSize * 2 ^ level
  if roomForRotation s.width s.height marginLevel0 tileSizeLevel0 x y then
    let rotateRegionLocation := (x - marginLevel0, y - marginLevel0)
    let cropSize := (tileSize + 2 * margin, tileSize + 2 * margin)
    let tm := s.read_region rotateRegionLocation level cropSize
    let cropCoords := (margin, margin, tileSize + margin, tileSize + margin)
    rotationAngles.map (fun degrees =>
      (x, y, degrees, s.rotateCrop tm.1 degrees cropCoords,
       s.rotateCrop tm.2 degrees cropCoords))
  else []

/-- The body of build's doubly nested loop for one grid cell (x, y):
read the base tile, skip the cell entirely if it is mostly white,
otherwise yield the base tuple followed, when rotation is enabled, by
the rotated tuples. -/
def cellEmissions (s : SlideM α) (level : ℕ) (tileSize : ℤ) (rotate : Bool)
    (x y : ℤ) : List (ℤ × ℤ × ℤ × α × α) :=
  let tm := s.read_region (x, y) level (tileSize, tileSize)
  if isMostlyWhite s tm.1 mostlyWhiteThreshold then []
  else
    (x, y, 0, tm.1, tm.2) ::
      (if rotate then buildRotations s level tileSize x y else [])

/-- The grid of base cells build visits: x over
range(0, width - tile_size_level_0 + 1, stride) and, inside it, y over
the same range for the height. -/
def gridCells (width height tileSize : ℤ) (overlap : ℚ) (level : ℕ) :
    List (ℤ × ℤ) :=
  let tileSizeLevel0 := tileSize * 2 ^ level
  let stride := strideVal tileSize overlap level
  (pyRange 0 (width - tileSizeLevel0 + 1) stride).flatMap (fun x =>
    (pyRange 0 (height - tileSizeLevel0 + 1) stride).map (fun y => (x, y)))

/-- TileBuilder.build: the full emitted sequence, as the concatenation
of the per-cell emissions over the visited grid. -/
def buildList (s : SlideM α) (level : ℕ) (tileSize : ℤ) (overlap : ℚ)
    (rotate : Bool) : List (ℤ × ℤ × ℤ × α × α) :=
  (gridCells s.width s.height tileSize overlap level).flatMap
    (fun c => cellEmissions s level tileSize rotate c.1 c.2)

/-- The bounding box as claim C1 words it: the axis-aligned box of the
polygon expanded by 16 pixels on all four sides. -/
def claimBoundsC1 (pts : List (ℤ × ℤ)) : (ℤ × ℤ) × (ℤ × ℤ) :=
  let xs := pts.map Prod.fst
  let ys := pts.map Prod.snd
  let minX := xs.min?.getD 0
  let maxX := xs.max?.getD 0
  let minY := ys.min?.getD 0
  let maxY := ys.max?.getD 0
  ((minX - 16, minY - 16), (maxX - minX + 32, maxY - minY + 32))

/-- The predicate selecting the tuples a given grid cell emitted: build
tags every tuple of cell (x, y) with those coordinates. -/
def cellPred {α : Type} (x y : ℤ) (t : ℤ × ℤ × ℤ × α × α) : Bool :=
  decide (t.1 = x) && decide (t.2.1 = y)

/-- A concrete 1024 by 1024 slide whose every tile passes the whiteness
filter (its green histogram has one bucket of dark pixels), used to
evaluate the grid walk. -/
def slide1024 : SlideM Unit :=
  { width := 1024, height := 1024,
    read_region := fun _ _ _ => ((), ()),
    greenHist := fun _ => [1],
    rotateCrop := fun t _ _ => t }

/-- A concrete 1024 by 1024 slide on which exactly the tile at the
origin is mostly white (all 10 of its pixels sit in bucket 220); tiles
are represented by their location. -/
def slideWhiteAt00 : SlideM (ℤ × ℤ) :=
  { width := 1024, height := 1024,
    read_region := fun location _ _ => (location, location),
    greenHist := fun t => if t = (0, 0) then List.replicate 220 0 ++ [10] else [1],
    rotateCrop := fun t _ _ => t }

/-- A concrete 2048 by 2048 slide whose every tile passes the whiteness
filter, with tiles represented by their location and rotation modelled
as the identity on that representation, used to evaluate the rotation
margin conditions. -/
def slide2048 : SlideM (ℤ × ℤ) :=
  { width := 2048, height := 2048,
    read_region := fun location _ _ => (location, location),
    greenHist := fun _ => [1],
    rotateCrop := fun t _ _ => t }

/-- C1 counterexample: for the square polygon with corners (0,0) and
(10,10), the Annotation's box is location (-8,-8) and size (26,26),
not the location (-16,-16) and size (42,42) the claim computes. -/
theorem c1_counterexample :
    (mkAnnot [(0, 0), (10, 0), (10, 10), (0, 10)]).location
        ≠ (claimBoundsC1 [(0, 0), (10, 0), (10, 10), (0, 10)]).1
      ∧ (mkAnnot [(0, 0), (10, 0), (10, 10), (0, 10)]).size
        ≠ (claimBoundsC1 [(0, 0), (10, 0), (10, 10), (0, 10)]).2 := by
  refine ⟨?_, ?_⟩ <;> decide

/-- C1 (amended): for every nonempty polygon, the box computed at
construction is the axis-aligned bounding box of the points expanded by
a fixed 8-pixel margin on all four sides: location
(min_x - 8, min_y - 8) and size (max_x - min_x + 16, max_y - min_y + 16)
(the module's 16-pixel margin constant is split between the two sides of
each axis). -/
theorem mkAnnot_bounds (p : ℤ × ℤ) (ps : List (ℤ × ℤ)) :
    (mkAnnot (p :: ps)).location
        = (((p :: ps).map Prod.fst).min?.getD 0 - 8,
           ((p :: ps).map Prod.snd).min?.getD 0 - 8)
      ∧ (mkAnnot (p :: ps)).size
        = (((p :: ps).map Prod.fst).max?.getD 0
             - ((p :: ps).map Prod.fst).min?.getD 0 + 16,
           ((p :: ps).map Prod.snd).max?.getD 0
             - ((p :: ps).map Prod.snd).min?.getD 0 + 16) := by
  simp [mkAnnot, computeBounds, List.min?, List.max?, List.foldl_map]

/-- pyRound returns a nearest integer: it is never more than 1/2 away
from its argument. -/
theorem pyRound_near (q : ℚ) : |q - (pyRound q : ℚ)| ≤ 1 / 2 := by
  have hfl : (⌊q⌋ : ℚ) ≤ q := Int.floor_le q
  have hfu : q < ⌊q⌋ + 1 := Int.lt_floor_add_one q
  simp only [pyRound]
  split_ifs with h1 h2 h3 <;> rw [abs_le] <;> push_cast <;> constructor <;> linarith

/-- pyRound sends exact halves to the even neighbor. -/
theorem pyRound_tie_even (q : ℚ) (h : q - ⌊q⌋ = 1 / 2) : Even (pyRound q) := by
  simp only [pyRound]
  rw [h]
  norm_num
  by_cases he : Even ⌊q⌋
  · simp [he]
  · simp [he]
    rcases Int.even_or_odd ⌊q⌋ with h' | h'
    · exact absurd h' he
    · exact Int.even_add_one.mpr he

/-- C2: the physical-to-level-0 conversion equals
round((coord - offset) / (mpp * 1000) + dimension / 2) where round is
round-half-to-even: it rounds to a nearest integer, sends exact halves
to the even neighbor, and is not truncation (it carries 3/2 up to 2). -/
theorem physical_cord2level0_spec (dimension offset coord : ℤ) (mpp : ℚ) :
    physical_cord2level0 dimension offset mpp coord
        = pyRound (((coord : ℚ) - (offset : ℚ)) / (mpp * 1000) + (dimension : ℚ) / 2)
      ∧ (∀ q : ℚ, |q - (pyRound q : ℚ)| ≤ 1 / 2)
      ∧ (∀ q : ℚ, q - ⌊q⌋ = 1 / 2 → Even (pyRound q))
      ∧ pyRound (3 / 2) = 2 := by
  refine ⟨rfl, pyRound_near, pyRound_tie_even, ?_⟩
  norm_num [pyRound]

/-- Witness for C2 at a concrete calibration, with the half-to-even tie
discharged at q = 5/2. -/
theorem physical_cord2level0_spec_witness :
    physical_cord2level0 1024 0 1 100
        = pyRound (((100 : ℚ) - 0) / (1 * 1000) + (1024 : ℚ) / 2)
      ∧ Even (pyRound (5 / 2)) :=
  ⟨(physical_cord2level0_spec 1024 0 100 1).1,
   (physical_cord2level0_spec 1024 0 100 1).2.2.1 (5 / 2) (by norm_num)⟩

/-- C7: if any viewstate's annotation record has a closed flag different
from 1 the whole parse fails with the malformed-annotation error and no
collection, not even a partial one, is produced; if every record is
closed, parse succeeds with exactly one annotation per viewstate,
converted point by point into level-0 pixels. -/
theorem parseTree_spec (dims : ℤ × ℤ) (mpp : ℚ × ℚ) (off : ℤ × ℤ)
    (t : List Viewstate) :
    ((∃ vs ∈ t, vs.closed ≠ 1) →
      parseTree dims mpp off t = .error .malformedAnnot)
    ∧ ((∀ vs ∈ t, vs.closed = 1) →
      parseTree dims mpp off t
        = .ok (t.map (fun vs =>
            mkAnnot (vs.points.map (physical_point2level0 dims mpp off))))) := by
  induction t with
  | nil => simp [parseTree]
  | cons v rest ih =>
    constructor
    · rintro ⟨vs, hmem, hne⟩
      rcases List.mem_cons.mp hmem with h | h
      · subst h
        simp [parseTree, parseViewstate, hne]
      · by_cases hv : v.closed = 1
        · have hrec := ih.1 ⟨vs, h, hne⟩
          simp [parseTree, parseViewstate, hv, hrec]
        · simp [parseTree, parseViewstate, hv]
    · intro hall
      have hv : v.closed = 1 := hall v (List.mem_cons_self v rest)
      have hrest := ih.2 (fun vs hvs => hall vs (List.mem_cons_of_mem _ hvs))
      simp [parseTree, parseViewstate, hv, hrest]

/-- Witness for C7: a tree with an open annotation fails wholesale, and
a tree of one closed triangle parses into exactly one annotation. -/
theorem parseTree_spec_witness :
    parseTree (100, 100) (1, 1) (0, 0)
        [⟨1, [(0, 0), (2, 0), (2, 2)]⟩, ⟨0, [(0, 0), (2, 0), (2, 2)]⟩]
        = .error .malformedAnnot
    ∧ parseTree (100, 100) (1, 1) (0, 0) [⟨1, [(0, 0), (2, 0), (2, 2)]⟩]
        = .ok [mkAnnot ([(0, 0), (2, 0), (2, 2)].map
            (physical_point2level0 (100, 100) (1, 1) (0, 0)))] :=
  ⟨(parseTree_spec (100, 100) (1, 1) (0, 0) _).1
      ⟨⟨0, [(0, 0), (2, 0), (2, 2)]⟩, by simp, by decide⟩,
   by
    have h := (parseTree_spec (100, 100) (1, 1) (0, 0)
      [⟨1, [(0, 0), (2, 0), (2, 2)]⟩]).2 (by intro vs hvs; simp at hvs; simp [hvs])
    simpa using h⟩

/-- C8: read_region fails with the calibration-mismatch error, returning
no pair, whenever the slide's declared downsample for the level is not
exactly 2 ^ level; when it is, it returns the slide image paired with
the mask the collection renders for the same location, level and
size. -/
theorem annotatedReadRegion_spec (ops : RasterOps) (slide : RawSlide α)
    (anns : List Annot) (location : ℤ × ℤ) (level : ℕ) (size : ℤ × ℤ) :
    (slide.downsample level ≠ 2 ^ level →
      annotatedReadRegion ops slide anns location level size
        = .error .calibrationMismatch)
    ∧ (slide.downsample level = 2 ^ level →
      ∀ m, collectionRenderRegion ops anns location level size = .ok m →
        annotatedReadRegion ops slide anns location level size
          = .ok (slide.read_region location level size, m)) := by
  constructor
  · intro hne
    simp [annotatedReadRegion, Ne.symm hne]
  · intro heq m hm
    simp [annotatedReadRegion, heq, hm]

/-- Witness for C8: a slide declaring downsample 3 at level 0 fails, and
a correctly calibrated slide with no annotations returns its region with
the all-transparent 4 by 4 mask. -/
theorem annotatedReadRegion_spec_witness :
    annotatedReadRegion trivialRaster
        { dimensions := (64, 64), downsample := fun _ => 3,
          read_region := fun l _ _ => l } [] (0, 0) 0 (4, 4)
        = .error .calibrationMismatch
    ∧ annotatedReadRegion trivialRaster
        { dimensions := (64, 64), downsample := fun _ => 1,
          read_region := fun l _ _ => l } [] (0, 0) 0 (4, 4)
        = .ok ((0, 0), imgNew 4 4 0) :=
  ⟨(annotatedReadRegion_spec trivialRaster _ [] (0, 0) 0 (4, 4)).1 (by decide),
   (annotatedReadRegion_spec trivialRaster _ [] (0, 0) 0 (4, 4)).2 (by decide)
      (imgNew 4 4 0) rfl⟩

/-- The annotation state render_region leaves behind is the state the
rendered property produced after the level was set. -/
theorem annRenderRegion_state (ops : RasterOps) (a : Annot) (location : ℤ × ℤ)
    (level : ℕ) (size : ℤ × ℤ) :
    (annRenderRegion ops a location level size).2.1
      = (getRendered ops (setCurrentLevel a level)).2.1 := rfl

/-- The render flag render_region reports is the one of the rendered
property after the level was set. -/
theorem annRenderRegion_flag (ops : RasterOps) (a : Annot) (location : ℤ × ℤ)
    (level : ℕ) (size : ℤ × ℤ) :
    (annRenderRegion ops a location level size).2.2
      = (getRendered ops (setCurrentLevel a level)).2.2 := rfl

/-- After the rendered property runs, a mask is always cached. -/
theorem getRendered_cache_isSome (ops : RasterOps) (a : Annot) :
    (getRendered ops a).2.1.rendCache.isSome = true := by
  unfold getRendered
  cases h : a.rendCache <;> simp [h]

/-- The rendered property does not change the current level. -/
theorem getRendered_level (ops : RasterOps) (a : Annot) :
    (getRendered ops a).2.1.currentLevel = a.currentLevel := by
  unfold getRendered
  cases h : a.rendCache <;> simp [h]

/-- The current_level setter always leaves the written level behind. -/
theorem setCurrentLevel_level (a : Annot) (v : ℤ) :
    (setCurrentLevel a v).currentLevel = v := by
  unfold setCurrentLevel
  split <;> simp_all

/-- A cached annotation at an unchanged level is returned untouched by
the rendered property, without re-rendering. -/
theorem getRendered_cached (ops : RasterOps) (a : Annot) (m : Img)
    (h : a.rendCache = some m) : getRendered ops a = (m, a, false) := by
  unfold getRendered
  simp [h]

/-- C9: writing the level the annotation already holds is a no-op that
keeps the cached mask, while writing a different level clears the cache;
consequently, of two consecutive render_region calls at one level L the
second never re-renders, leaves the cache exactly as the first call left
it, and the rendered property serves the second call the mask the first
call cached. -/
theorem renderRegion_cache_spec (ops : RasterOps) (a : Annot) (v : ℤ)
    (location location2 : ℤ × ℤ) (level : ℕ) (size size2 : ℤ × ℤ) :
    (a.currentLevel = v → setCurrentLevel a v = a)
    ∧ (a.currentLevel ≠ v → (setCurrentLevel a v).rendCache = none)
    ∧ (annRenderRegion ops a location level size).2.1.rendCache.isSome = true
    ∧ (annRenderRegion ops (annRenderRegion ops a location level size).2.1
        location2 level size2).2.2 = false
    ∧ (annRenderRegion ops (annRenderRegion ops a location level size).2.1
        location2 level size2).2.1.rendCache
      = (annRenderRegion ops a location level size).2.1.rendCache
    ∧ (∀ m, (annRenderRegion ops a location level size).2.1.rendCache = some m →
        (getRendered ops (setCurrentLevel
          (annRenderRegion ops a location level size).2.1 level)).1 = m) := by
  have hstate := annRenderRegion_state ops a location level size
  have hsome := getRendered_cache_isSome ops (setCurrentLevel a level)
  have hlvl : (annRenderRegion ops a location level size).2.1.currentLevel
      = (level : ℤ) := by
    rw [hstate, getRendered_level, setCurrentLevel_level]
  have hset2 : setCurrentLevel (annRenderRegion ops a location level size).2.1
      (level : ℤ) = (annRenderRegion ops a location level size).2.1 := by
    unfold setCurrentLevel
    simp [hlvl]
  refine ⟨fun h => by simp [setCurrentLevel, h],
          fun h => by simp [setCurrentLevel, h], ?_, ?_, ?_, ?_⟩
  · rw [hstate]; exact hsome
  · rw [annRenderRegion_flag, hset2, hstate]
    rcases Option.isSome_iff_exists.mp hsome with ⟨m, hm⟩
    rw [getRendered_cached ops _ m hm]
  · rw [annRenderRegion_state _ _ location2 level size2, hset2, hstate]
    rcases Option.isSome_iff_exists.mp hsome with ⟨m, hm⟩
    rw [getRendered_cached ops _ m hm]
  · intro m hm
    rw [hset2, getRendered_cached ops _ m hm]

/-- Witness for C9 on a concrete annotation: a fresh annotation holds
level -1, so setting level 3 clears the (already empty) cache, and the
no-op direction applies after the setter has run once. -/
theorem renderRegion_cache_spec_witness :
    (setCurrentLevel (mkAnnot [(0, 0), (4, 0), (4, 4), (0, 4)]) 3).rendCache = none
    ∧ setCurrentLevel
        (setCurrentLevel (mkAnnot [(0, 0), (4, 0), (4, 4), (0, 4)]) 3) 3
      = setCurrentLevel (mkAnnot [(0, 0), (4, 0), (4, 4), (0, 4)]) 3
    ∧ (annRenderRegion trivialRaster
        (annRenderRegion trivialRaster (mkAnnot [(0, 0), (4, 0), (4, 4), (0, 4)])
          (0, 0) 0 (4, 4)).2.1 (0, 0) 0 (4, 4)).2.2 = false :=
  ⟨(renderRegion_cache_spec trivialRaster
      (mkAnnot [(0, 0), (4, 0), (4, 4), (0, 4)]) 3 (0, 0) (0, 0) 0 (4, 4) (4, 4)).2.1
      (by decide),
   (renderRegion_cache_spec trivialRaster
      (setCurrentLevel (mkAnnot [(0, 0), (4, 0), (4, 4), (0, 4)]) 3) 3
      (0, 0) (0, 0) 0 (4, 4) (4, 4)).1 (setCurrentLevel_level _ 3),
   (renderRegion_cache_spec trivialRaster
      (mkAnnot [(0, 0), (4, 0), (4, 4), (0, 4)]) 3 (0, 0) (0, 0) 0 (4, 4) (4, 4)).2.2.2.1⟩

/-- C10: overlap is a pure function of the stored box, and neither the
rendered property, nor the level setter, nor render_region ever changes
the polygon point list, the box location or the box size: render_region
touches only the cache and current-level fields. -/
theorem annot_frame_spec (ops : RasterOps) (a : Annot) (v : ℤ)
    (location : ℤ × ℤ) (level : ℕ) (size : ℤ × ℤ) :
    ((setCurrentLevel a v).pixelPoints = a.pixelPoints
      ∧ (setCurrentLevel a v).location = a.location
      ∧ (setCurrentLevel a v).size = a.size)
    ∧ ((getRendered ops a).2.1.pixelPoints = a.pixelPoints
      ∧ (getRendered ops a).2.1.location = a.location
      ∧ (getRendered ops a).2.1.size = a.size)
    ∧ ((annRenderRegion ops a location level size).2.1.pixelPoints = a.pixelPoints
      ∧ (annRenderRegion ops a location level size).2.1.location = a.location
      ∧ (annRenderRegion ops a location level size).2.1.size = a.size) := by
  have hset : ∀ b w, (setCurrentLevel b w).pixelPoints = b.pixelPoints
      ∧ (setCurrentLevel b w).location = b.location
      ∧ (setCurrentLevel b w).size = b.size := by
    intro b w
    unfold setCurrentLevel
    split <;> simp
  have hget : ∀ b, (getRendered ops b).2.1.pixelPoints = b.pixelPoints
      ∧ (getRendered ops b).2.1.location = b.location
      ∧ (getRendered ops b).2.1.size = b.size := by
    intro b
    unfold getRendered
    cases h : b.rendCache <;> simp [h]
  refine ⟨hset a v, hget a, ?_⟩
  rw [annRenderRegion_state]
  refine ⟨?_, ?_, ?_⟩
  · rw [(hget _).1, (hset a level).1]
  · rw [(hget _).2.1, (hset a level).2.1]
  · rw [(hget _).2.2, (hset a level).2.2]

/-- The level setter never changes the stored box location. -/
theorem setCurrentLevel_location (a : Annot) (v : ℤ) :
    (setCurrentLevel a v).location = a.location := by
  unfold setCurrentLevel
  split <;> simp

/-- The level setter never changes the stored box size. -/
theorem setCurrentLevel_size (a : Annot) (v : ℤ) :
    (setCurrentLevel a v).size = a.size := by
  unfold setCurrentLevel
  split <;> simp

/-- The first component of render_region, written with the crop box
spelled out over the original annotation's box (the level setter does
not move the box). -/
theorem annRenderRegion_result (ops : RasterOps) (a : Annot)
    (regionLocation : ℤ × ℤ) (level : ℕ) (regionSize : ℤ × ℤ) :
    (annRenderRegion ops a regionLocation level regionSize).1
      = (match imgCrop (getRendered ops (setCurrentLevel a level)).1
            ((aRelativeToB regionLocation
              (regionSize.1 * 2 ^ level, regionSize.2 * 2 ^ level)
              a.location a.size).1.1.fdiv (2 ^ level))
            ((aRelativeToB regionLocation
              (regionSize.1 * 2 ^ level, regionSize.2 * 2 ^ level)
              a.location a.size).1.2.fdiv (2 ^ level))
            ((aRelativeToB regionLocation
              (regionSize.1 * 2 ^ level, regionSize.2 * 2 ^ level)
              a.location a.size).2.1.fdiv (2 ^ level))
            ((aRelativeToB regionLocation
              (regionSize.1 * 2 ^ level, regionSize.2 * 2 ^ level)
              a.location a.size).2.2.fdiv (2 ^ level)) with
        | .error e => Except.error e
        | .ok renderedCrop =>
          Except.ok (imgPaste (imgNew regionSize.1 regionSize.2 0) renderedCrop
            ((aRelativeToB a.location a.size regionLocation
              (regionSize.1 * 2 ^ level, regionSize.2 * 2 ^ level)).1.1.fdiv (2 ^ level))
            ((aRelativeToB a.location a.size regionLocation
              (regionSize.1 * 2 ^ level, regionSize.2 * 2 ^ level)).1.2.fdiv (2 ^ level)))) := by
  simp only [annRenderRegion, setCurrentLevel_location, setCurrentLevel_size]

/-- Skipping loop: when no annotation overlaps the scaled region, the
collection loop returns its canvas unchanged. -/
theorem renderRegionFold_skip (ops : RasterOps) (location : ℤ × ℤ)
    (level : ℕ) (sizeLevel0 size : ℤ × ℤ) (anns : List Annot) (acc : Img)
    (h : ∀ a ∈ anns, annOverlap a location sizeLevel0 = false) :
    renderRegionFold ops location level sizeLevel0 size anns acc = .ok acc := by
  induction anns with
  | nil => rfl
  | cons a rest ih =>
    have ha := h a (List.mem_cons_self a rest)
    unfold renderRegionFold
    rw [ha]
    simp only [Bool.false_eq_true, if_false]
    exact ih (fun b hb => h b (List.mem_cons_of_mem _ hb))

/-- C6 counterexample: a 20 by 20 square annotation around (110, 110)
does not overlap the 10 by 10 region at the origin, and render_region
on that region at level 0 raises the inverted-crop error instead of
returning an all-transparent image. -/
theorem c6_counterexample :
    annOverlap (mkAnnot [(100, 100), (120, 100), (120, 120), (100, 120)])
        (0, 0) (10, 10) = false
    ∧ (annRenderRegion trivialRaster
        (mkAnnot [(100, 100), (120, 100), (120, 120), (100, 120)])
        (0, 0) 0 (10, 10)).1 = .error .cropRight :=
  ⟨by decide, rfl⟩

/-- C6 (amended): at level 0, render_region on a query box that does not
overlap the annotation's bounding box always fails in the crop step (the
downscaled crop rectangle is inverted and the raster library rejects
it), rather than returning an image; the collection's render_region on a
square region overlapped by no annotation does return an all-transparent
mask of exactly the requested size. -/
theorem renderRegion_no_overlap_spec (ops : RasterOps) (a : Annot)
    (location : ℤ × ℤ) (level : ℕ) (size : ℤ × ℤ) (anns : List Annot) :
    (0 ≤ size.1 → 0 ≤ size.2 → annOverlap a location size = false →
      ∃ e, (annRenderRegion ops a location 0 size).1 = .error e)
    ∧ (size.1 = size.2 →
      (∀ b ∈ anns,
        annOverlap b location (size.1 * 2 ^ level, size.2 * 2 ^ level) = false) →
      ∃ m, collectionRenderRegion ops anns location level size = .ok m
        ∧ m.w = size.1 ∧ m.h = size.2 ∧ ∀ x y, m.alpha x y = 0) := by
  obtain ⟨qx, qy⟩ := location
  obtain ⟨qw, qh⟩ := size
  constructor
  · intro h1 h2 hov
    simp only [annOverlap, boxRanges, Bool.and_eq_false_iff,
      decide_eq_false_iff_not] at hov
    rw [annRenderRegion_result]
    simp only [pow_zero, mul_one, Int.fdiv_one, aRelativeToB]
    simp only at h1 h2
    have hcase : (min (qx - a.location.1 + qw) a.size.1 < max (qx - a.location.1) 0)
        ∨ (¬ min (qx - a.location.1 + qw) a.size.1 < max (qx - a.location.1) 0
           ∧ min (qy - a.location.2 + qh) a.size.2 < max (qy - a.location.2) 0) := by
      rcases hov with hx | hy
      · push_neg at hx
        left
        omega
      · push_neg at hy
        by_cases hx : min (qx - a.location.1 + qw) a.size.1
            < max (qx - a.location.1) 0
        · exact Or.inl hx
        · refine Or.inr ⟨hx, ?_⟩
          omega
    rcases hcase with hx | ⟨hnx, hy⟩
    · refine ⟨.cropRight, ?_⟩
      rw [imgCrop, if_pos hx]
    · refine ⟨.cropLower, ?_⟩
      rw [imgCrop, if_neg hnx, if_pos hy]
  · intro hsq hnov
    simp only at hsq
    subst hsq
    refine ⟨imgNew qw qw 0, ?_, rfl, rfl, fun x y => rfl⟩
    have hskip := renderRegionFold_skip ops (qx, qy) level
      ((qw, qw).1 * 2 ^ level, (qw, qw).2 * 2 ^ level) (qw, qw) anns
      (imgNew (qw, qw).1 (qw, qw).2 0) hnov
    unfold collectionRenderRegion
    rw [if_neg (by simp)]
    simp [hskip, convertLA]

/-- Witness for C6: the square annotation around (110, 110) makes the
level-0 no-overlap call fail, and a level-1 collection query it does not
overlap renders the 10 by 10 all-transparent mask. -/
theorem renderRegion_no_overlap_spec_witness :
    (∃ e, (annRenderRegion trivialRaster
        (mkAnnot [(100, 100), (120, 100), (120, 120), (100, 120)])
        (50, 0) 0 (10, 10)).1 = .error e)
    ∧ ∃ m, collectionRenderRegion trivialRaster
        [mkAnnot [(100, 100), (120, 100), (120, 120), (100, 120)]]
        (0, 0) 1 (10, 10) = .ok m
        ∧ m.w = 10 ∧ m.h = 10 ∧ ∀ x y, m.alpha x y = 0 :=
  ⟨(renderRegion_no_overlap_spec trivialRaster
      (mkAnnot [(100, 100), (120, 100), (120, 120), (100, 120)])
      (50, 0) 1 (10, 10) []).1 (by decide) (by decide) (by decide),
   (renderRegion_no_overlap_spec trivialRaster
      (mkAnnot [(100, 100), (120, 100), (120, 120), (100, 120)])
      (0, 0) 1 (10, 10)
      [mkAnnot [(100, 100), (120, 100), (120, 120), (100, 120)]]).2
      rfl (by decide)⟩

/-- Membership in the grid walk's range from 0 with a positive stride:
exactly the nonnegative multiples of the stride below the stop value. -/
theorem pyRange_zero_mem (stop step : ℤ) (hstep : 0 < step) (v : ℤ) :
    v ∈ pyRange 0 stop step ↔ (∃ i : ℕ, v = step * i) ∧ v < stop := by
  have key : ∀ i : ℕ, (i < ((stop - 0 + step - 1).fdiv step).toNat)
      ↔ step * (i : ℤ) < stop := by
    intro i
    rw [Int.lt_toNat, sub_zero, Int.fdiv_eq_ediv _ (le_of_lt hstep)]
    have h3 : ((i : ℤ) + 1) * step = step * (i : ℤ) + step := by ring
    constructor
    · intro h
      have h1 : (i : ℤ) + 1 ≤ (stop + step - 1) / step := by omega
      have h2 := (Int.le_ediv_iff_mul_le hstep).mp h1
      omega
    · intro h
      have h1 : ((i : ℤ) + 1) * step ≤ stop + step - 1 := by omega
      have h2 := (Int.le_ediv_iff_mul_le hstep).mpr h1
      omega
  unfold pyRange
  rw [if_pos hstep]
  constructor
  · intro hv
    rcases List.mem_map.mp hv with ⟨i, hi, hiv⟩
    have hlt := (key i).mp (List.mem_range.mp hi)
    refine ⟨⟨i, ?_⟩, ?_⟩
    · rw [← hiv]; ring
    · rw [← hiv]; linarith [hlt]
  · rintro ⟨⟨i, rfl⟩, hlt⟩
    exact List.mem_map.mpr ⟨i, List.mem_range.mpr ((key i).mpr hlt), by ring⟩

/-- Membership in the visited grid, for a positive stride: exactly the
pairs of nonnegative stride multiples whose level-0 tile footprint stays
inside the slide. -/
theorem gridCells_mem (width height tileSize : ℤ) (overlap : ℚ) (level : ℕ)
    (hstride : 0 < strideVal tileSize overlap level) (x y : ℤ) :
    (x, y) ∈ gridCells width height tileSize overlap level
      ↔ ((∃ i : ℕ, x = strideVal tileSize overlap level * i)
          ∧ x + tileSize * 2 ^ level ≤ width)
        ∧ ((∃ j : ℕ, y = strideVal tileSize overlap level * j)
          ∧ y + tileSize * 2 ^ level ≤ height) := by
  have hconv : ∀ v bound : ℤ, v < bound - tileSize * 2 ^ level + 1
      ↔ v + tileSize * 2 ^ level ≤ bound := by
    intro v bound
    rw [Int.lt_add_one_iff, le_sub_iff_add_le]
  unfold gridCells
  constructor
  · intro hmem
    rcases List.mem_flatMap.mp hmem with ⟨a, ha, hpair⟩
    rcases List.mem_map.mp hpair with ⟨b, hb, heq⟩
    obtain ⟨rfl, rfl⟩ : a = x ∧ b = y := Prod.mk.injEq .. ▸ heq
    rw [pyRange_zero_mem _ _ hstride] at ha hb
    exact ⟨⟨ha.1, (hconv ..).mp ha.2⟩, ⟨hb.1, (hconv ..).mp hb.2⟩⟩
  · rintro ⟨⟨hxi, hxle⟩, hyj, hyle⟩
    refine List.mem_flatMap.mpr ⟨x, ?_, List.mem_map.mpr ⟨y, ?_, rfl⟩⟩
    · exact (pyRange_zero_mem _ _ hstride x).mpr ⟨hxi, (hconv ..).mpr hxle⟩
    · exact (pyRange_zero_mem _ _ hstride y).mpr ⟨hyj, (hconv ..).mpr hyle⟩

/-- The grid walk ranges have no duplicates when the stride is not 0. -/
theorem pyRange_nodup (start stop step : ℤ) (hstep : step ≠ 0) :
    (pyRange start stop step).Nodup := by
  have hinj : Function.Injective (fun i : ℕ => start + step * (i : ℤ)) := by
    intro a b hab
    have hab2 : start + step * (a : ℤ) = start + step * (b : ℤ) := hab
    have : step * (a : ℤ) = step * (b : ℤ) := by omega
    exact_mod_cast mul_left_cancel₀ hstep this
  unfold pyRange
  split_ifs with h1 h2
  · exact List.Nodup.map hinj (List.nodup_range _)
  · exact List.Nodup.map hinj (List.nodup_range _)
  · exact List.nodup_nil

/-- Pairing two duplicate-free lists gives a duplicate-free list of
pairs. -/
theorem flatMap_pair_nodup (xs ys : List ℤ) (hx : xs.Nodup) (hy : ys.Nodup) :
    (xs.flatMap (fun x => ys.map (fun y => (x, y)))).Nodup := by
  induction xs with
  | nil => simp
  | cons x rest ih =>
    rw [List.flatMap_cons]
    apply List.Nodup.append
    · exact hy.map (fun a b h => ((Prod.mk.injEq ..).mp h).2)
    · exact ih (List.nodup_cons.mp hx).2
    · intro p hp1 hp2
      rcases List.mem_map.mp hp1 with ⟨b, hb, rfl⟩
      rcases List.mem_flatMap.mp hp2 with ⟨x2, hx2, hpx2⟩
      rcases List.mem_map.mp hpx2 with ⟨b2, hb2, heq⟩
      have hxx : x2 = x := ((Prod.mk.injEq ..).mp heq).1
      exact (List.nodup_cons.mp hx).1 (hxx ▸ hx2)

/-- The visited grid has no duplicate cells when the stride is
positive. -/
theorem gridCells_nodup (width height tileSize : ℤ) (overlap : ℚ) (level : ℕ)
    (hstride : 0 < strideVal tileSize overlap level) :
    (gridCells width height tileSize overlap level).Nodup := by
  unfold gridCells
  exact flatMap_pair_nodup _ _ (pyRange_nodup _ _ _ (by omega))
    (pyRange_nodup _ _ _ (by omega))

/-- Every tuple a cell emits carries that cell's coordinates in its
first two components. -/
theorem cellEmissions_coords {α : Type} (s : SlideM α) (level : ℕ)
    (tileSize : ℤ) (rotate : Bool) (x y : ℤ) :
    ∀ t ∈ cellEmissions s level tileSize rotate x y, t.1 = x ∧ t.2.1 = y := by
  intro t ht
  simp only [cellEmissions] at ht
  split at ht
  · simp at ht
  · rcases List.mem_cons.mp ht with rfl | hrest
    · exact ⟨rfl, rfl⟩
    · split at hrest
      · simp only [buildRotations] at hrest
        split at hrest
        · rcases List.mem_map.mp hrest with ⟨d, hd, rfl⟩
          exact ⟨rfl, rfl⟩
        · simp at hrest
      · simp at hrest

/-- Filtering the concatenated per-cell emissions down to one cell's
tags leaves exactly that cell's own emissions, provided the cell list
has no duplicates. -/
theorem filter_flatMap_eq {β γ : Type} (l : List β) (f : β → List γ)
    (p : γ → Bool) (b : β) (hmem : b ∈ l) (hnd : l.Nodup)
    (hb : ∀ t ∈ f b, p t = true)
    (hother : ∀ c ∈ l, c ≠ b → ∀ t ∈ f c, p t = false) :
    (l.flatMap f).filter p = f b := by
  induction l with
  | nil => cases hmem
  | cons c rest ih =>
    rw [List.flatMap_cons, List.filter_append]
    rcases List.mem_cons.mp hmem with rfl | hb_rest
    · have h1 : (f b).filter p = f b := List.filter_eq_self.mpr hb
      have hnotin : b ∉ rest := (List.nodup_cons.mp hnd).1
      have h2 : (rest.flatMap f).filter p = [] := by
        apply List.filter_eq_nil_iff.mpr
        intro t ht
        rcases List.mem_flatMap.mp ht with ⟨c2, hc2, htc2⟩
        have hne : c2 ≠ b := fun h => hnotin (h ▸ hc2)
        simp [hother c2 (List.mem_cons_of_mem _ hc2) hne t htc2]
      rw [h1, h2, List.append_nil]
    · have hcne : c ≠ b := by
        rintro rfl
        exact (List.nodup_cons.mp hnd).1 hb_rest
      have h1 : (f c).filter p = [] := by
        apply List.filter_eq_nil_iff.mpr
        intro t ht
        simp [hother c (List.mem_cons_self c rest) hcne t ht]
      rw [h1, List.nil_append]
      exact ih hb_rest (List.nodup_cons.mp hnd).2
        (fun c2 hc2 => hother c2 (List.mem_cons_of_mem _ hc2))

/-- The room-for-rotation check, unfolded into the four slack
conditions. -/
theorem roomForRotation_iff (width height marginLevel0 tileSizeLevel0 x y : ℤ) :
    roomForRotation width height marginLevel0 tileSizeLevel0 x y = true
      ↔ (0 ≤ x - marginLevel0 ∧ 0 ≤ y - marginLevel0
        ∧ x + marginLevel0 + tileSizeLevel0 ≤ width
        ∧ y + marginLevel0 + tileSizeLevel0 ≤ height) := by
  unfold roomForRotation
  split_ifs <;> simp <;> omega


/-- On the all-pass 1024 slide every tile fails the whiteness test. -/
theorem slide1024_not_white (u : Unit) :
    isMostlyWhite slide1024 u mostlyWhiteThreshold = false := by
  have h : (([1] : List ℕ).drop 220).sum = 0 := by decide
  simp only [isMostlyWhite, mostlyWhiteThreshold, slide1024, h,
    decide_eq_false_iff_not]
  norm_num

/-- The grid the 1024 slide walk visits with tile size 512, no overlap,
level 0. -/
theorem slide1024_grid :
    gridCells slide1024.width slide1024.height 512 0 0
      = [(0, 0), (0, 512), (512, 0), (512, 512)] := by
  have hs : strideVal 512 0 0 = 512 := by norm_num [strideVal, pyInt]
  simp only [gridCells, hs, slide1024]
  decide

/-- C3 counterexample: at overlap -1/1000 (a negative overlap fraction
build accepts), int() truncation toward zero and floor disagree, so the
stride is 512, not the 513 of the claim's floor formula. -/
theorem c3_counterexample :
    strideVal 512 (-1 / 1000) 0 ≠ (512 - ⌊(512 : ℚ) * (-1 / 1000)⌋) * 2 ^ 0 := by
  have hpy : pyInt (((512 : ℤ) : ℚ) * (-1 / 1000)) = 0 := by norm_num [pyInt]
  have hfl : ⌊(512 : ℚ) * (-1 / 1000)⌋ = -1 := by norm_num
  rw [strideVal, hpy, hfl]
  norm_num

/-- C3 (amended): the stride is (tile_size - int(tile_size * overlap))
scaled by 2 ^ level, where int() truncates toward zero; this equals the
claim's floor formula whenever overlap is nonnegative.  For a positive
stride the visited grid is exactly the pairs of nonnegative stride
multiples (x, y) with x + tile_size * 2 ^ level within the width and
y + tile_size * 2 ^ level within the height; on the 1024 by 1024 slide
with tile size 512, no overlap, level 0 and every tile passing the
whiteness filter, exactly the four base tiles (0,0), (512,0), (0,512),
(512,512) are emitted (in x-outer loop order). -/
theorem build_grid_spec {α : Type} (s : SlideM α) (tileSize : ℤ)
    (overlap : ℚ) (level : ℕ) :
    strideVal tileSize overlap level
        = (tileSize - pyInt ((tileSize : ℚ) * overlap)) * 2 ^ level
    ∧ (0 ≤ tileSize → 0 ≤ overlap →
        strideVal tileSize overlap level
          = (tileSize - ⌊(tileSize : ℚ) * overlap⌋) * 2 ^ level)
    ∧ (0 < strideVal tileSize overlap level →
        ∀ x y : ℤ, (x, y) ∈ gridCells s.width s.height tileSize overlap level
          ↔ ((∃ i : ℕ, x = strideVal tileSize overlap level * i)
              ∧ x + tileSize * 2 ^ level ≤ s.width)
            ∧ ((∃ j : ℕ, y = strideVal tileSize overlap level * j)
              ∧ y + tileSize * 2 ^ level ≤ s.height))
    ∧ ((buildList slide1024 0 512 0 false).map (fun t => (t.1, t.2.1))
        = [(0, 0), (0, 512), (512, 0), (512, 512)]
      ∧ ((buildList slide1024 0 512 0 false).map (fun t => (t.1, t.2.1))).Perm
          [(0, 0), (512, 0), (0, 512), (512, 512)]) := by
  have hbuild : (buildList slide1024 0 512 0 false).map (fun t => (t.1, t.2.1))
      = [(0, 0), (0, 512), (512, 0), (512, 512)] := by
    have hcell : ∀ x y : ℤ, cellEmissions slide1024 0 512 false x y
        = [(x, y, 0, (), ())] := by
      intro x y
      simp [cellEmissions, slide1024_not_white]
    simp [buildList, slide1024_grid, hcell]
  refine ⟨rfl, ?_,
    fun h x y => gridCells_mem s.width s.height tileSize overlap level h x y,
    hbuild, ?_⟩
  · intro ht hov
    unfold strideVal pyInt
    rw [if_pos (mul_nonneg (by exact_mod_cast ht) hov)]
  · rw [hbuild]
    decide

/-- Witness for C3 at overlap 1/4 level 1 (floor form) and on the
concrete 1024 slide grid (membership of cell (512, 512)). -/
theorem build_grid_spec_witness :
    strideVal 512 (1 / 4) 1 = (512 - ⌊(512 : ℚ) * (1 / 4)⌋) * 2 ^ 1
    ∧ (512, 512) ∈ gridCells slide1024.width slide1024.height 512 0 0 :=
  ⟨(build_grid_spec slide1024 512 (1 / 4) 1).2.1 (by norm_num) (by norm_num),
   ((build_grid_spec slide1024 512 0 0).2.2.1
        (by norm_num [strideVal, pyInt]) 512 512).mpr
     ⟨⟨⟨1, by norm_num [strideVal, pyInt]⟩, by norm_num [slide1024]⟩,
      ⟨1, by norm_num [strideVal, pyInt]⟩, by norm_num [slide1024]⟩⟩

/-- C4: for every visited grid cell with a nonempty base tile, if the
fraction of green-channel pixels in buckets 220 and above is at least
0.70, no tuple at all is emitted for that cell (base or rotated);
otherwise the base (angle 0) tuple with that cell's tile and mask is
emitted. -/
theorem whiteness_filter_spec {α : Type} (s : SlideM α) (tileSize : ℤ)
    (overlap : ℚ) (level : ℕ) (rotate : Bool) (x y : ℤ)
    (hmem : (x, y) ∈ gridCells s.width s.height tileSize overlap level)
    (hpos : 0 < (s.greenHist (s.read_region (x, y) level (tileSize, tileSize)).1).sum) :
    ((((s.greenHist (s.read_region (x, y) level (tileSize, tileSize)).1).drop 220).sum : ℚ)
        / ((s.greenHist (s.read_region (x, y) level (tileSize, tileSize)).1).sum : ℚ)
        ≥ 7 / 10 →
      ∀ t ∈ buildList s level tileSize overlap rotate, ¬(t.1 = x ∧ t.2.1 = y))
    ∧ ((((s.greenHist (s.read_region (x, y) level (tileSize, tileSize)).1).drop 220).sum : ℚ)
        / ((s.greenHist (s.read_region (x, y) level (tileSize, tileSize)).1).sum : ℚ)
        < 7 / 10 →
      (x, y, 0, (s.read_region (x, y) level (tileSize, tileSize)).1,
        (s.read_region (x, y) level (tileSize, tileSize)).2)
        ∈ buildList s level tileSize overlap rotate) := by
  constructor
  · intro hfrac t ht hxy
    rcases List.mem_flatMap.mp ht with ⟨c, hc, htc⟩
    have hco := cellEmissions_coords s level tileSize rotate c.1 c.2 t htc
    have hc1 : c.1 = x := hco.1.symm.trans hxy.1
    have hc2 : c.2 = y := hco.2.symm.trans hxy.2
    rw [hc1, hc2] at htc
    have hw : isMostlyWhite s (s.read_region (x, y) level (tileSize, tileSize)).1
        mostlyWhiteThreshold = true := by
      unfold isMostlyWhite mostlyWhiteThreshold
      exact decide_eq_true hfrac
    simp [cellEmissions, hw] at htc
  · intro hfrac
    have hw : isMostlyWhite s (s.read_region (x, y) level (tileSize, tileSize)).1
        mostlyWhiteThreshold = false := by
      unfold isMostlyWhite mostlyWhiteThreshold
      exact decide_eq_false (not_le.mpr hfrac)
    refine List.mem_flatMap.mpr ⟨(x, y), hmem, ?_⟩
    simp [cellEmissions, hw]

set_option maxRecDepth 10000 in
/-- Witness for C4 on the slide that is white exactly at the origin
tile: the cell (0, 0) emits nothing, while the cell (512, 0) emits its
base tuple. -/
theorem whiteness_filter_spec_witness :
    (∀ t ∈ buildList slideWhiteAt00 0 512 0 false, ¬(t.1 = 0 ∧ t.2.1 = 0))
    ∧ (512, 0, 0, ((512 : ℤ), (0 : ℤ)), ((512 : ℤ), (0 : ℤ)))
        ∈ buildList slideWhiteAt00 0 512 0 false := by
  have hs : strideVal 512 0 0 = 512 := by norm_num [strideVal, pyInt]
  have hmem0 : ((0 : ℤ), (0 : ℤ))
      ∈ gridCells slideWhiteAt00.width slideWhiteAt00.height 512 0 0 := by
    simp only [gridCells, hs, slideWhiteAt00]
    decide
  have hmem512 : ((512 : ℤ), (0 : ℤ))
      ∈ gridCells slideWhiteAt00.width slideWhiteAt00.height 512 0 0 := by
    simp only [gridCells, hs, slideWhiteAt00]
    decide
  constructor
  · refine (whiteness_filter_spec slideWhiteAt00 512 0 0 false 0 0 hmem0
      (by decide)).1 ?_
    have hd : ((slideWhiteAt00.greenHist
        (slideWhiteAt00.read_region (0, 0) 0 (512, 512)).1).drop 220).sum = 10 := by
      decide
    have ht : (slideWhiteAt00.greenHist
        (slideWhiteAt00.read_region (0, 0) 0 (512, 512)).1).sum = 10 := by
      decide
    rw [hd, ht]
    norm_num
  · refine (whiteness_filter_spec slideWhiteAt00 512 0 0 false 512 0 hmem512
      (by decide)).2 ?_
    have hd : ((slideWhiteAt00.greenHist
        (slideWhiteAt00.read_region (512, 0) 0 (512, 512)).1).drop 220).sum = 0 := by
      decide
    have ht : (slideWhiteAt00.greenHist
        (slideWhiteAt00.read_region (512, 0) 0 (512, 512)).1).sum = 1 := by
      decide
    rw [hd, ht]
    norm_num

/-- C5: when rotation is enabled, a visited cell that passes the
whiteness filter emits only its base tuple if any of the four
rotation-margin slack conditions fails, and emits exactly the base
tuple followed by the three rotated tuples at 15, 30 and 45 degrees
(cropped from the enlarged read) if all four hold. -/
theorem rotation_room_spec {α : Type} (s : SlideM α) (tileSize : ℤ)
    (overlap : ℚ) (level : ℕ) (x y : ℤ)
    (hstride : 0 < strideVal tileSize overlap level)
    (hmem : (x, y) ∈ gridCells s.width s.height tileSize overlap level)
    (hwhite : isMostlyWhite s (s.read_region (x, y) level (tileSize, tileSize)).1
        mostlyWhiteThreshold = false) :
    (¬(0 ≤ x - rotationMargin tileSize * 2 ^ level
        ∧ 0 ≤ y - rotationMargin tileSize * 2 ^ level
        ∧ x + rotationMargin tileSize * 2 ^ level + tileSize * 2 ^ level ≤ s.width
        ∧ y + rotationMargin tileSize * 2 ^ level + tileSize * 2 ^ level ≤ s.height) →
      (buildList s level tileSize overlap true).filter (cellPred x y)
        = [(x, y, 0, (s.read_region (x, y) level (tileSize, tileSize)).1,
            (s.read_region (x, y) level (tileSize, tileSize)).2)])
    ∧ ((0 ≤ x - rotationMargin tileSize * 2 ^ level
        ∧ 0 ≤ y - rotationMargin tileSize * 2 ^ level
        ∧ x + rotationMargin tileSize * 2 ^ level + tileSize * 2 ^ level ≤ s.width
        ∧ y + rotationMargin tileSize * 2 ^ level + tileSize * 2 ^ level ≤ s.height) →
      (buildList s level tileSize overlap true).filter (cellPred x y)
        = (x, y, 0, (s.read_region (x, y) level (tileSize, tileSize)).1,
            (s.read_region (x, y) level (tileSize, tileSize)).2)
          :: [(15 : ℤ), 30, 45].map (fun degrees =>
            (x, y, degrees,
             s.rotateCrop (s.read_region
               (x - rotationMargin tileSize * 2 ^ level,
                y - rotationMargin tileSize * 2 ^ level) level
               (tileSize + 2 * rotationMargin tileSize,
                tileSize + 2 * rotationMargin tileSize)).1 degrees
               (rotationMargin tileSize, rotationMargin tileSize,
                tileSize + rotationMargin tileSize, tileSize + rotationMargin tileSize),
             s.rotateCrop (s.read_region
               (x - rotationMargin tileSize * 2 ^ level,
                y - rotationMargin tileSize * 2 ^ level) level
               (tileSize + 2 * rotationMargin tileSize,
                tileSize + 2 * rotationMargin tileSize)).2 degrees
               (rotationMargin tileSize, rotationMargin tileSize,
                tileSize + rotationMargin tileSize, tileSize + rotationMargin tileSize)))) := by
  have hfilter : (buildList s level tileSize overlap true).filter (cellPred x y)
      = cellEmissions s level tileSize true x y := by
    refine filter_flatMap_eq _ _ _ (x, y) hmem
      (gridCells_nodup _ _ _ _ _ hstride) ?_ ?_
    · intro t ht
      obtain ⟨h1, h2⟩ := cellEmissions_coords s level tileSize true x y t ht
      simp [cellPred, h1, h2]
    · rintro ⟨cx, cy⟩ hc hne t ht
      obtain ⟨h1, h2⟩ := cellEmissions_coords s level tileSize true cx cy t ht
      simp only [cellPred, h1, h2, Bool.and_eq_false_iff]
      by_cases hcx : cx = x
      · have hcy : cy ≠ y := fun h => hne (by rw [hcx, h])
        simp [hcy]
      · simp [hcx]
  constructor
  · intro hnoroom
    have hroom : roomForRotation s.width s.height
        (rotationMargin tileSize * 2 ^ level) (tileSize * 2 ^ level) x y
        = false := by
      rw [Bool.eq_false_iff]
      intro h
      exact hnoroom ((roomForRotation_iff ..).mp h)
    rw [hfilter]
    simp [cellEmissions, hwhite, buildRotations, hroom]
  · intro hroom4
    have hroom : roomForRotation s.width s.height
        (rotationMargin tileSize * 2 ^ level) (tileSize * 2 ^ level) x y
        = true := (roomForRotation_iff ..).mpr hroom4
    rw [hfilter]
    simp [cellEmissions, hwhite, buildRotations, hroom, rotationAngles]

set_option maxRecDepth 10000 in
/-- Witness for C5 on the 2048 slide: the corner cell (0, 0) lacks
rotation room and emits only its base tuple, while the interior cell
(512, 512) emits its base tuple followed by the three rotated tuples. -/
theorem rotation_room_spec_witness :
    (buildList slide2048 0 512 0 true).filter (cellPred 0 0)
      = [(0, 0, 0, ((0 : ℤ), (0 : ℤ)), ((0 : ℤ), (0 : ℤ)))]
    ∧ (buildList slide2048 0 512 0 true).filter (cellPred 512 512)
      = [(512, 512, 0, ((512 : ℤ), (512 : ℤ)), ((512 : ℤ), (512 : ℤ))),
         (512, 512, 15, ((405 : ℤ), (405 : ℤ)), ((405 : ℤ), (405 : ℤ))),
         (512, 512, 30, ((405 : ℤ), (405 : ℤ)), ((405 : ℤ), (405 : ℤ))),
         (512, 512, 45, ((405 : ℤ), (405 : ℤ)), ((405 : ℤ), (405 : ℤ)))] := by
  have hs : strideVal 512 0 0 = 512 := by norm_num [strideVal, pyInt]
  have hm : rotationMargin 512 = 107 := by
    have h1 : (2 * (512 : ℤ).toNat ^ 2) = 524288 := by decide
    have h2 : (724 : ℕ) = Nat.sqrt 524288 := Nat.eq_sqrt.mpr (by norm_num)
    unfold rotationMargin
    rw [h1, ← h2]
    decide
  have hw : ∀ t : ℤ × ℤ, isMostlyWhite slide2048 t mostlyWhiteThreshold = false := by
    intro t
    have h : (([1] : List ℕ).drop 220).sum = 0 := by decide
    simp only [isMostlyWhite, mostlyWhiteThreshold, slide2048, h,
      decide_eq_false_iff_not]
    norm_num
  have hstridePos : (0 : ℤ) < strideVal 512 0 0 := by rw [hs]; norm_num
  have hmem0 : ((0 : ℤ), (0 : ℤ))
      ∈ gridCells slide2048.width slide2048.height 512 0 0 := by
    simp only [gridCells, hs, slide2048]
    decide
  have hmem512 : ((512 : ℤ), (512 : ℤ))
      ∈ gridCells slide2048.width slide2048.height 512 0 0 := by
    simp only [gridCells, hs, slide2048]
    decide
  constructor
  · have h := (rotation_room_spec slide2048 512 0 0 0 0 hstridePos hmem0
      (hw _)).1 (by rw [hm]; decide)
    exact h
  · have h := (rotation_room_spec slide2048 512 0 0 512 512 hstridePos hmem512
      (hw _)).2 (by rw [hm]; simp only [slide2048]; decide)
    rw [hm] at h
    simpa [slide2048] using h
